import Mathlib

/-!
Shallow embedding of
`src/tldraw/apps/tldraw-logseq/src/components/ContextBar/contextBarActionFactory.tsx`:
the context-bar action resolver (`getContextBarActionsForTypes`), its static
tables (`contextBarActionTypes`, `singleShapeActions`, `shapeMapping`), the
per-widget selection filter (`filterShapeByAction`), the widgets' display-value
derivations (Swatch, StrokeType, ScaleLevel) and change handlers (NoFill,
StrokeType, debounced Swatch), together with theorems about them.
-/

namespace ContextBarFactory

/-- The closed enumeration of context-bar action identifiers, in declaration
order (the source comments: order matters). -/
inductive ContextBarActionType where
  | Edit
  | AutoResizing
  | Swatch
  | NoFill
  | StrokeType
  | ScaleLevel
  | TextStyle
  | YoutubeLink
  | LogseqPortalViewMode
  | ArrowMode
  | OpenPage
deriving DecidableEq, Repr, Fintype

/-- The shape type tags. The first ten constructors are the keys of
`shapeMapping` in the source. The source types the table as
`Partial<Record<ShapeType, ContextBarActionType[]>>` over the full shape-type
union of the external `~lib` (not part of this excerpt), so shape types outside
the table exist; `image`, `video` and `group` model such unmapped types. -/
inductive ShapeType where
  | logseqPortal
  | youtube
  | box
  | ellipse
  | polygon
  | line
  | pencil
  | highlighter
  | text
  | html
  | image
  | video
  | group
deriving DecidableEq, Repr, Fintype

open ContextBarActionType in
/-- The fixed enumeration array `contextBarActionTypes` from the source. -/
def contextBarActionTypes : List ContextBarActionType :=
  [Edit, AutoResizing, Swatch, NoFill, StrokeType, ScaleLevel, TextStyle,
   YoutubeLink, LogseqPortalViewMode, ArrowMode, OpenPage]

open ContextBarActionType in
/-- The `singleShapeActions` array from the source. -/
def singleShapeActions : List ContextBarActionType :=
  [Edit, YoutubeLink, OpenPage]

open ContextBarActionType in
/-- The static `shapeMapping` table. It is a partial record in the source, so
it is `Option`-valued here; a missing key gives `none`. -/
def shapeMapping : ShapeType → Option (List ContextBarActionType)
  | .logseqPortal => some [Edit, LogseqPortalViewMode, ScaleLevel, OpenPage, AutoResizing]
  | .youtube => some [YoutubeLink]
  | .box => some [Swatch, NoFill, StrokeType]
  | .ellipse => some [Swatch, NoFill, StrokeType]
  | .polygon => some [Swatch, NoFill, StrokeType]
  | .line => some [Edit, Swatch, ArrowMode]
  | .pencil => some [Swatch]
  | .highlighter => some [Swatch]
  | .text => some [Edit, Swatch, ScaleLevel, AutoResizing, TextStyle]
  | .html => some [ScaleLevel, AutoResizing]
  | _ => none

/-- The `Decoration` enumeration imported from `@tldraw/core`; only its
`Arrow` member is used in this excerpt. -/
inductive Decoration where
  | arrow
deriving DecidableEq, Repr

/-- A shape's `decorations` property as used by `ArrowModeAction`: an optional
decoration for each end of a line. The `finish` field models the source's
`end` key (`end` is a Lean keyword). -/
structure ShapeDecorations where
  start : Option Decoration := none
  finish : Option Decoration := none
deriving DecidableEq, Repr

/-- A shape as this component sees it: a type tag plus the property-bag fields
the widgets in this excerpt read or write (`fill`, `stroke`, `noFill`,
`strokeType`, `scaleLevel`, `isAutoResizing`, `decorations`, `fontWeight`,
`italic`). The shape entity is externally owned; only these fields matter
here. -/
structure Shape where
  type : ShapeType
  fill : String := ""
  stroke : String := ""
  noFill : Bool := false
  strokeType : String := "line"
  scaleLevel : String := "md"
  isAutoResizing : Bool := false
  decorations : ShapeDecorations := {}
  fontWeight : Nat := 400
  italic : Bool := false
deriving DecidableEq, Repr

/-- `getContextBarActionTypes` from the source:
`(shapeMapping[type] ?? []).filter(isNonNullable)`. Table entries are non-null,
so the `isNonNullable` filter is the identity and is omitted. -/
def getContextBarActionTypes (t : ShapeType) : List ContextBarActionType :=
  (shapeMapping t).getD []

/-- `filterShapeByAction` from the source:
`shapes.filter(shape => shapeMapping[shape.props.type]?.includes(type))`
(a missing table entry is falsy, hence excludes the shape). -/
def filterShapeByAction (shapes : List Shape) (ty : ContextBarActionType) : List Shape :=
  shapes.filter (fun s => ((shapeMapping s.type).getD []).contains ty)

/-- The intersection loop of `getContextBarActionsForTypes`:
`for (let i = 1; i < types.length && actionTypes.size > 0; i++)` deleting from
the running set every action absent from the current type's list. Deleting the
non-members is keeping the members, i.e. a filter. -/
def intersectLoop (acc : List ContextBarActionType) :
    List ShapeType → List ContextBarActionType
  | [] => acc
  | t :: ts =>
    if acc.isEmpty then acc
    else intersectLoop (acc.filter (fun a => (getContextBarActionTypes t).contains a)) ts

/-- The final sort of `getContextBarActionsForTypes`:
`.sort((a, b) => contextBarActionTypes.indexOf(a) - contextBarActionTypes.indexOf(b))`. -/
def sortByEnumIndex (l : List ContextBarActionType) : List ContextBarActionType :=
  l.mergeSort (fun a b => contextBarActionTypes.indexOf a ≤ contextBarActionTypes.indexOf b)

/-- `getContextBarActionsForTypes` from the source, up to the final
`.map(action => contextBarActionMapping.get(action)!)` (the widget components
carry no further logic relevant here, so the resolver is modelled as returning
the ordered action identifiers). `new Set(list)` is insertion-order
deduplication, modelled by `List.dedup` (the table rows are duplicate-free, so
this is the identity on every reachable input). -/
def getContextBarActionsForTypes (shapes : List Shape) : List ContextBarActionType :=
  let types := shapes.map (fun s => s.type)
  let actionTypes :=
    match types with
    | [] => ([] : List ContextBarActionType)
    | t :: ts => intersectLoop (getContextBarActionTypes t).dedup ts
  let actionTypes :=
    if shapes.length > 1 then
      actionTypes.filter (fun a => !(singleShapeActions.contains a))
    else actionTypes
  sortByEnumIndex actionTypes

/-- The display value of the Swatch widget (`SwatchAction`):
`shapes[0].props.noFill ? shapes[0].props.stroke : shapes[0].props.fill`, where
`shapes` is the Swatch-filtered selection. Reading `shapes[0]` of an empty
filtered selection is undefined in the source; that is modelled as `none`. -/
def swatchValue (selection : List Shape) : Option String :=
  (filterShapeByAction selection .Swatch).head?.map
    (fun s => if s.noFill then s.stroke else s.fill)

/-- The display value of the StrokeType widget (`StrokeTypeAction`):
`"dashed"` when every filtered shape's strokeType is dashed, else `"line"` when
every one is line, else `"mixed"`. -/
def strokeTypeValue (selection : List Shape) : String :=
  let shapes := filterShapeByAction selection .StrokeType
  if shapes.all (fun s => s.strokeType == "dashed") then "dashed"
  else if shapes.all (fun s => s.strokeType == "line") then "line"
  else "mixed"

/-- The display value of the ScaleLevel widget (`ScaleLevelAction`):
`new Set(shapes.map(s => s.scaleLevel)).size > 1 ? '' : shapes[0].scaleLevel`.
The set size is the number of distinct scale levels (`dedup.length`); reading
`shapes[0]` of an empty filtered selection is modelled as `none`. -/
def scaleLevelValue (selection : List Shape) : Option String :=
  let shapes := filterShapeByAction selection .ScaleLevel
  if (shapes.map (fun s => s.scaleLevel)).dedup.length > 1 then some ""
  else (filterShapeByAction selection .ScaleLevel).head?.map (fun s => s.scaleLevel)

/-- The NoFill widget's change handler (`NoFillAction`): each shape of the
NoFill-filtered selection is updated in place with `noFill := v`, then
`app.persist()` is called once. The result is the selection after the in-place
updates, paired with the number of persist calls. A selected shape is mutated
exactly when it is in the filtered list. -/
def noFillOnChange (selection : List Shape) (v : Bool) : List Shape × Nat :=
  let shapes := filterShapeByAction selection .NoFill
  (selection.map (fun s => if s ∈ shapes then { s with noFill := v } else s), 1)

/-- The StrokeType widget's change handler (`StrokeTypeAction`): each shape of
the StrokeType-filtered selection is updated in place with `strokeType := v`,
then `app.persist()` is called once. -/
def strokeTypeOnChange (selection : List Shape) (v : String) : List Shape × Nat :=
  let shapes := filterShapeByAction selection .StrokeType
  (selection.map (fun s => if s ∈ shapes then { s with strokeType := v } else s), 1)

/-- `valueToDecorations` from `ArrowModeAction`:
`{ start: value.includes('start') ? Decoration.Arrow : null,
   end: value.includes('end') ? Decoration.Arrow : null }`. -/
def valueToDecorations (v : List String) : ShapeDecorations :=
  { start := if v.contains "start" then some Decoration.arrow else none,
    finish := if v.contains "end" then some Decoration.arrow else none }

/-- The ArrowMode widget's change handler (`ArrowModeAction`): each shape of
the ArrowMode-filtered selection is updated in place with
`decorations := valueToDecorations v`, then `app.persist()` is called once. -/
def arrowModeOnChange (selection : List Shape) (v : List String) : List Shape × Nat :=
  let shapes := filterShapeByAction selection .ArrowMode
  (selection.map (fun s =>
      if s ∈ shapes then { s with decorations := valueToDecorations v } else s), 1)

/-- The TextStyle widget's bold toggle handler (`TextStyleAction`): each shape
of the TextStyle-filtered selection is updated in place with
`fontWeight := v ? 700 : 400` (the following `shape.onResetBounds()` recomputes
external geometry, which is not part of the modelled property bag), then
`app.persist()` is called once. -/
def textStyleBoldOnChange (selection : List Shape) (v : Bool) : List Shape × Nat :=
  let shapes := filterShapeByAction selection .TextStyle
  (selection.map (fun s =>
      if s ∈ shapes then { s with fontWeight := if v then 700 else 400 } else s), 1)

/-- The TextStyle widget's italic toggle handler (`TextStyleAction`): each
shape of the TextStyle-filtered selection is updated in place with
`italic := v` (followed by the external `onResetBounds`), then `app.persist()`
is called once. -/
def textStyleItalicOnChange (selection : List Shape) (v : Bool) : List Shape × Nat :=
  let shapes := filterShapeByAction selection .TextStyle
  (selection.map (fun s => if s ∈ shapes then { s with italic := v } else s), 1)

/-- The AutoResizing widget's change handler (`AutoResizingAction`): for each
shape of the AutoResizing-filtered selection, when its type is logseq-portal
it is updated in place with `isAutoResizing := v`; otherwise the handler calls
`s.onResetBounds({ zoom })`, an external geometry recomputation that writes
none of the modelled property-bag fields and in particular does not apply `v`.
Then `app.persist()` is called once. -/
def autoResizingOnChange (selection : List Shape) (v : Bool) : List Shape × Nat :=
  let shapes := filterShapeByAction selection .AutoResizing
  (selection.map (fun s =>
      if s ∈ shapes then
        (if s.type = ShapeType.logseqPortal then { s with isAutoResizing := v } else s)
      else s), 1)

/-- One firing of the debounced Swatch handler with latest value `v`: every
Swatch-filtered shape is updated in place with `fill := v` (the handler body
`shapes.forEach(s => s.update({ fill: latestValue }))`). -/
def swatchCommit (selection : List Shape) (v : String) : List Shape :=
  let shapes := filterShapeByAction selection .Swatch
  selection.map (fun s => if s ∈ shapes then { s with fill := v } else s)

/-- Modelled from the spec: the `debounce` helper wrapping the Swatch handler
is imported from `@tldraw/core` and is not part of this excerpt. Per the spec,
each incoming event immediately replaces the single pending value (pending
updates are replaced, not queued) and restarts the trailing window `w`; the
handler fires with the latest value once the window elapses with no further
event. Events are timestamped `(time, value)` pairs in time order; the result
is the list of committed values, in order. -/
def debounceCommits (w : Nat) (pending : Option (Nat × String)) :
    List (Nat × String) → List String
  | [] =>
    match pending with
    | none => []
    | some p => [p.2]
  | e :: es =>
    match pending with
    | none => debounceCommits w (some e) es
    | some p =>
      if e.1 < p.1 + w then debounceCommits w (some e) es
      else p.2 :: debounceCommits w (some e) es

/-- The net effect of a burst of color-input events on the Swatch widget: each
debounced commit applies the committed value to the Swatch-filtered shapes and
calls `app.persist(true)` once (the `true` is the ephemeral/coalescable flag,
recorded per persist call). -/
def swatchBurst (w : Nat) (selection : List Shape) (events : List (Nat × String)) :
    List Shape × List Bool :=
  (debounceCommits w none events).foldl
    (fun st v => (swatchCommit st.1 v, st.2 ++ [true])) (selection, [])

end ContextBarFactory

unseal List.merge List.mergeSort

namespace ContextBarFactory

/-- Every action identifier occurs in the fixed enumeration. -/
theorem mem_contextBarActionTypes (a : ContextBarActionType) : a ∈ contextBarActionTypes := by
  cases a <;> decide

theorem nodup_contextBarActionTypes : contextBarActionTypes.Nodup := by decide

/-- Bridge between the Boolean `List.contains` used by the embedded code and
propositional membership. -/
theorem contains_iff {α : Type} [DecidableEq α] (l : List α) (a : α) :
    l.contains a = true ↔ a ∈ l := by
  simp [List.contains_iff_exists_mem_beq]

/-- Membership in the intersection loop: an action survives iff it was in the
initial set and every remaining shape type's list contains it. -/
theorem mem_intersectLoop (ts : List ShapeType) (acc : List ContextBarActionType)
    (a : ContextBarActionType) :
    a ∈ intersectLoop acc ts ↔ a ∈ acc ∧ ∀ t ∈ ts, a ∈ getContextBarActionTypes t := by
  induction ts generalizing acc with
  | nil => simp [intersectLoop]
  | cons t ts ih =>
    by_cases h : acc.isEmpty
    · rw [List.isEmpty_iff] at h
      subst h
      simp [intersectLoop]
    · rw [intersectLoop, if_neg h, ih]
      simp only [List.mem_filter, List.forall_mem_cons, contains_iff]
      tauto

/-- The intersection loop preserves the no-duplicates property. -/
theorem nodup_intersectLoop (ts : List ShapeType) (acc : List ContextBarActionType)
    (h : acc.Nodup) : (intersectLoop acc ts).Nodup := by
  induction ts generalizing acc with
  | nil => exact h
  | cons t ts ih =>
    rw [intersectLoop]
    by_cases he : acc.isEmpty
    · rw [if_pos he]; exact h
    · rw [if_neg he]; exact ih _ (h.filter _)

/-- Sorting a duplicate-free list of action identifiers by enumeration index
yields exactly the enumeration filtered to the list's members. -/
theorem sortByEnumIndex_eq_filter (l : List ContextBarActionType) (hl : l.Nodup) :
    sortByEnumIndex l = contextBarActionTypes.filter (fun a => l.contains a) := by
  have hperm : (sortByEnumIndex l).Perm
      (contextBarActionTypes.filter (fun a => l.contains a)) := by
    refine (List.mergeSort_perm l _).trans ?_
    rw [List.perm_ext_iff_of_nodup hl (nodup_contextBarActionTypes.filter _)]
    intro a
    simp [List.mem_filter, mem_contextBarActionTypes a]
  have hanti : ∀ a b : ContextBarActionType,
      contextBarActionTypes.indexOf a ≤ contextBarActionTypes.indexOf b →
      contextBarActionTypes.indexOf b ≤ contextBarActionTypes.indexOf a → a = b := by decide
  have hs1 : List.Sorted
      (fun a b : ContextBarActionType =>
        contextBarActionTypes.indexOf a ≤ contextBarActionTypes.indexOf b)
      (sortByEnumIndex l) := by
    have h := @List.sorted_mergeSort ContextBarActionType
      (fun a b => decide (contextBarActionTypes.indexOf a ≤ contextBarActionTypes.indexOf b))
      (by decide) (by decide) l
    refine h.imp ?_
    intro a b hab
    exact of_decide_eq_true hab
  have hs2 : List.Sorted
      (fun a b : ContextBarActionType =>
        contextBarActionTypes.indexOf a ≤ contextBarActionTypes.indexOf b)
      (contextBarActionTypes.filter (fun a => l.contains a)) := by
    refine List.Pairwise.filter _ ?_
    decide
  exact @List.eq_of_perm_of_sorted ContextBarActionType
    (fun a b => contextBarActionTypes.indexOf a ≤ contextBarActionTypes.indexOf b)
    ⟨hanti⟩ _ _ hperm hs1 hs2

/-- A shape drawn from the selection is in the action-filtered selection iff
its type's table entry contains the action. -/
theorem mem_filterShapeByAction (shapes : List Shape) (a : ContextBarActionType)
    (s : Shape) (hs : s ∈ shapes) :
    s ∈ filterShapeByAction shapes a ↔ (getContextBarActionTypes s.type).contains a = true := by
  rw [filterShapeByAction, List.mem_filter, getContextBarActionTypes]
  simp [hs]

/-- Updating the shapes of an action-filtered selection in place is the same
as updating, across the whole selection, exactly the shapes whose type's table
entry contains the action. -/
theorem handlerMap_eq (selection : List Shape) (a : ContextBarActionType)
    (u : Shape → Shape) :
    selection.map (fun s => if s ∈ filterShapeByAction selection a then u s else s) =
      selection.map (fun s =>
        if (getContextBarActionTypes s.type).contains a then u s else s) := by
  refine List.map_congr_left ?_
  intro s hs
  by_cases hp : (getContextBarActionTypes s.type).contains a = true
  · rw [if_pos ((mem_filterShapeByAction selection a s hs).mpr hp), if_pos hp]
  · rw [if_neg (fun hmem => hp ((mem_filterShapeByAction selection a s hs).mp hmem)),
      if_neg hp]

/-- A list with two distinct members has more than one distinct element. -/
theorem one_lt_length_dedup {α : Type} [DecidableEq α] {l : List α} {a b : α}
    (ha : a ∈ l) (hb : b ∈ l) (hne : a ≠ b) : 1 < l.dedup.length := by
  have ha' : a ∈ l.dedup := List.mem_dedup.mpr ha
  have hb' : b ∈ l.dedup := List.mem_dedup.mpr hb
  rcases hld : l.dedup with _ | ⟨x, _ | ⟨y, t⟩⟩
  · rw [hld] at ha'
    simp at ha'
  · rw [hld] at ha' hb'
    simp at ha' hb'
    exact absurd (ha'.trans hb'.symm) hne
  · simp

/-- With a pending value and every further event arriving inside the debounce
window, the trailing debounce commits exactly once: the last value. -/
theorem debounceCommits_chain (w : Nat) (es : List (Nat × String)) (p : Nat × String)
    (hgap : List.Chain' (fun e f => f.1 < e.1 + w) (p :: es)) :
    debounceCommits w (some p) es = [((p :: es).getLast (by simp)).2] := by
  induction es generalizing p with
  | nil => simp [debounceCommits]
  | cons e es ih =>
    rw [List.chain'_cons] at hgap
    rw [debounceCommits]
    simp only [if_pos hgap.1]
    rw [ih e hgap.2]
    congr 1

/-- Characterization of the resolver: its result is the fixed enumeration
filtered to the actions that every selected shape's table entry contains, with
the single-shape-only actions additionally removed when more than one shape is
selected, and empty for the empty selection. -/
theorem getContextBarActionsForTypes_eq_filter (shapes : List Shape) :
    getContextBarActionsForTypes shapes =
      contextBarActionTypes.filter (fun a =>
        !shapes.isEmpty &&
        shapes.all (fun s => (getContextBarActionTypes s.type).contains a) &&
        (decide (shapes.length ≤ 1) || !(singleShapeActions.contains a))) := by
  cases shapes with
  | nil => simp [getContextBarActionsForTypes, sortByEnumIndex]
  | cons s rest =>
    cases rest with
    | nil =>
      have h1 : getContextBarActionsForTypes [s] =
          sortByEnumIndex (intersectLoop (getContextBarActionTypes s.type).dedup []) := by
        simp [getContextBarActionsForTypes]
      rw [h1, intersectLoop, sortByEnumIndex_eq_filter _ (List.nodup_dedup _)]
      refine List.filter_congr ?_
      intro a _
      rw [Bool.eq_iff_iff]
      simp [contains_iff, List.mem_dedup]
    | cons r rs =>
      have hlen : (s :: r :: rs).length > 1 := by simp
      have h1 : getContextBarActionsForTypes (s :: r :: rs) =
          sortByEnumIndex ((intersectLoop (getContextBarActionTypes s.type).dedup
            ((r :: rs).map (fun x => x.type))).filter
              (fun a => !(singleShapeActions.contains a))) := by
        simp only [getContextBarActionsForTypes, List.map_cons, if_pos hlen]
      have hnodup : (intersectLoop (getContextBarActionTypes s.type).dedup
          ((r :: rs).map (fun x => x.type))).Nodup :=
        nodup_intersectLoop _ _ (List.nodup_dedup _)
      rw [h1, sortByEnumIndex_eq_filter _ (hnodup.filter _)]
      refine List.filter_congr ?_
      intro a _
      rw [Bool.eq_iff_iff]
      have hd : decide ((s :: r :: rs).length ≤ 1) = false := by simp
      rw [hd]
      simp only [contains_iff, List.mem_filter, mem_intersectLoop, List.mem_dedup,
        List.all_eq_true, Bool.and_eq_true, Bool.or_eq_true, Bool.not_eq_true',
        List.isEmpty_cons, Bool.not_false, Bool.false_or, List.forall_mem_map,
        List.forall_mem_cons, Bool.true_and]

/-- C1: for every non-empty list of shapes, `getContextBarActionsForTypes`
returns exactly the action identifiers that the static table assigns to every
shape in the list (the intersection of the per-type action lists), with
single-shape-only actions removed whenever the list has more than one shape,
ordered by position in the fixed enumeration `contextBarActionTypes`. -/
theorem C1_resolver_intersection_enum_order (shapes : List Shape) (h : shapes ≠ []) :
    getContextBarActionsForTypes shapes =
      contextBarActionTypes.filter (fun a =>
        shapes.all (fun s => (getContextBarActionTypes s.type).contains a) &&
        (decide (shapes.length ≤ 1) || !(singleShapeActions.contains a))) := by
  rw [getContextBarActionsForTypes_eq_filter]
  refine List.filter_congr ?_
  intro a _
  cases shapes with
  | nil => exact absurd rfl h
  | cons s rest => rw [List.isEmpty_cons, Bool.not_false, Bool.true_and]

/-- Witness for C1 at a concrete one-element selection. -/
theorem C1_witness :
    getContextBarActionsForTypes [{ type := ShapeType.box }] =
      contextBarActionTypes.filter (fun a =>
        ([{ type := ShapeType.box }] : List Shape).all
          (fun s => (getContextBarActionTypes s.type).contains a) &&
        (decide (([{ type := ShapeType.box }] : List Shape).length ≤ 1) ||
          !(singleShapeActions.contains a))) :=
  C1_resolver_intersection_enum_order [{ type := ShapeType.box }] (by decide)

open ContextBarActionType in
/-- C3: a selection of more than one shape never resolves to any of the
single-shape-only actions; a one-element logseq-portal selection includes
`Edit` and `OpenPage`, while a two-element logseq-portal selection excludes
both. -/
theorem C3_multi_selection_excludes_single_shape_actions :
    (∀ shapes : List Shape, shapes.length > 1 →
       ∀ a ∈ getContextBarActionsForTypes shapes, a ∉ singleShapeActions) ∧
    (Edit ∈ getContextBarActionsForTypes [{ type := ShapeType.logseqPortal }] ∧
     OpenPage ∈ getContextBarActionsForTypes [{ type := ShapeType.logseqPortal }]) ∧
    (Edit ∉ getContextBarActionsForTypes
        [{ type := ShapeType.logseqPortal }, { type := ShapeType.logseqPortal }] ∧
     OpenPage ∉ getContextBarActionsForTypes
        [{ type := ShapeType.logseqPortal }, { type := ShapeType.logseqPortal }]) := by
  refine ⟨?_, by decide, by decide⟩
  intro shapes hlen a ha
  rw [getContextBarActionsForTypes_eq_filter] at ha
  have hp := (List.mem_filter.mp ha).2
  simp only [Bool.and_eq_true, Bool.or_eq_true, Bool.not_eq_true', decide_eq_true_eq] at hp
  rcases hp with ⟨-, hp2 | hp2⟩
  · omega
  · intro hm
    rw [← contains_iff] at hm
    rw [hp2] at hm
    exact Bool.false_ne_true hm

/-- Witness for C3: a concrete surviving action of a two-element selection is
not a single-shape action. -/
theorem C3_witness : ContextBarActionType.Swatch ∉ singleShapeActions :=
  C3_multi_selection_excludes_single_shape_actions.1
    [{ type := ShapeType.line }, { type := ShapeType.line }] (by decide)
    ContextBarActionType.Swatch (by decide)

/-- C4: the resolver's output is a subsequence of the declaration order of the
master enumeration `contextBarActionTypes`, and it does not depend on the
order in which the shapes appear in the selection. -/
theorem C4_enum_subsequence_and_order_invariance (shapes shapes' : List Shape)
    (h : shapes.Perm shapes') :
    (getContextBarActionsForTypes shapes).Sublist contextBarActionTypes ∧
    getContextBarActionsForTypes shapes = getContextBarActionsForTypes shapes' := by
  constructor
  · rw [getContextBarActionsForTypes_eq_filter]
    exact List.filter_sublist _
  · rw [getContextBarActionsForTypes_eq_filter, getContextBarActionsForTypes_eq_filter]
    have hE : shapes.isEmpty = shapes'.isEmpty := by
      rw [Bool.eq_iff_iff, List.isEmpty_iff, List.isEmpty_iff]
      constructor
      · intro e
        subst e
        exact h.symm.eq_nil
      · intro e
        subst e
        exact h.eq_nil
    refine List.filter_congr ?_
    intro a _
    have hA : (shapes.all fun s => (getContextBarActionTypes s.type).contains a) =
        (shapes'.all fun s => (getContextBarActionTypes s.type).contains a) := by
      rw [Bool.eq_iff_iff, List.all_eq_true, List.all_eq_true]
      exact ⟨fun H s hs => H s (h.mem_iff.mpr hs), fun H s hs => H s (h.mem_iff.mp hs)⟩
    rw [hE, hA, h.length_eq]

/-- Witness for C4 at a concrete selection and its reversal. -/
theorem C4_witness :
    (getContextBarActionsForTypes
      [{ type := ShapeType.box }, { type := ShapeType.line }]).Sublist contextBarActionTypes ∧
    getContextBarActionsForTypes [{ type := ShapeType.box }, { type := ShapeType.line }] =
      getContextBarActionsForTypes [{ type := ShapeType.line }, { type := ShapeType.box }] :=
  C4_enum_subsequence_and_order_invariance
    [{ type := ShapeType.box }, { type := ShapeType.line }]
    [{ type := ShapeType.line }, { type := ShapeType.box }]
    (List.Perm.swap ({ type := ShapeType.line } : Shape) ({ type := ShapeType.box } : Shape) [])

/-- C5: the empty selection resolves to the empty list, and any selection
containing a shape whose type is absent from the static table resolves to the
empty list (the unknown type contributes the empty action set and collapses
the intersection). -/
theorem C5_boundary_empty_and_unknown :
    getContextBarActionsForTypes [] = [] ∧
    ∀ (shapes : List Shape) (s : Shape), s ∈ shapes → shapeMapping s.type = none →
      getContextBarActionsForTypes shapes = [] := by
  constructor
  · decide
  · intro shapes s hs hnone
    rw [getContextBarActionsForTypes_eq_filter]
    refine List.filter_eq_nil_iff.mpr ?_
    intro a _
    simp only [Bool.and_eq_true, List.all_eq_true]
    intro hp
    have hc := hp.1.2 s hs
    rw [getContextBarActionTypes, hnone] at hc
    simp at hc

/-- Witness for C5: a selection containing an unmapped shape type resolves to
the empty list. -/
theorem C5_witness :
    getContextBarActionsForTypes [{ type := ShapeType.box }, { type := ShapeType.image }] = [] :=
  C5_boundary_empty_and_unknown.2
    [{ type := ShapeType.box }, { type := ShapeType.image }]
    { type := ShapeType.image } (by decide) rfl

/-- C7: for a single selected shape whose type has action list `L` in the
static table, the resolver returns a permutation of `L` (no identifier added
or dropped), namely `L` reordered into the master enumeration order. -/
theorem C7_single_shape_exact_row (s : Shape) (L : List ContextBarActionType)
    (h : shapeMapping s.type = some L) :
    (getContextBarActionsForTypes [s]).Perm L ∧
    getContextBarActionsForTypes [s] = contextBarActionTypes.filter (fun a => L.contains a) := by
  have hall : ∀ t : ShapeType, ((shapeMapping t).getD []).Nodup := by decide
  have hL : L.Nodup := by
    have hn := hall s.type
    rw [h] at hn
    exact hn
  have heq : getContextBarActionsForTypes [s] =
      contextBarActionTypes.filter (fun a => L.contains a) := by
    rw [getContextBarActionsForTypes_eq_filter]
    refine List.filter_congr ?_
    intro a _
    rw [Bool.eq_iff_iff]
    simp [getContextBarActionTypes, h]
  refine ⟨?_, heq⟩
  rw [heq]
  rw [List.perm_ext_iff_of_nodup (nodup_contextBarActionTypes.filter _) hL]
  intro a
  simp [List.mem_filter, mem_contextBarActionTypes a, contains_iff]

/-- Witness for C7 at a concrete pencil shape. -/
theorem C7_witness :
    (getContextBarActionsForTypes [{ type := ShapeType.pencil }]).Perm
      [ContextBarActionType.Swatch] ∧
    getContextBarActionsForTypes [{ type := ShapeType.pencil }] =
      contextBarActionTypes.filter (fun a => [ContextBarActionType.Swatch].contains a) :=
  C7_single_shape_exact_row { type := ShapeType.pencil } [ContextBarActionType.Swatch] rfl

/-- C8: a box-and-ellipse selection resolves to exactly
`[Swatch, NoFill, StrokeType]` in that order, and a box-and-line selection
resolves to exactly `[Swatch]`. -/
theorem C8_concrete_examples :
    getContextBarActionsForTypes [{ type := ShapeType.box }, { type := ShapeType.ellipse }] =
      [ContextBarActionType.Swatch, ContextBarActionType.NoFill,
       ContextBarActionType.StrokeType] ∧
    getContextBarActionsForTypes [{ type := ShapeType.box }, { type := ShapeType.line }] =
      [ContextBarActionType.Swatch] := by
  constructor <;> decide

/-- Counterexample to C2: two box shapes that disagree on `fill` (and have
`noFill = false`), yet the Swatch widget displays the first shape's `fill`
value — one particular shape's value, not a neutral/mixed state. -/
theorem C2_swatch_counterexample :
    ({ type := ShapeType.box, fill := "red" } : Shape).fill ≠
      ({ type := ShapeType.box, fill := "blue" } : Shape).fill ∧
    swatchValue [({ type := ShapeType.box, fill := "red" } : Shape),
                 ({ type := ShapeType.box, fill := "blue" } : Shape)] =
      some ({ type := ShapeType.box, fill := "red" } : Shape).fill := by
  constructor <;> decide

/-- C2 (amended): the StrokeType widget displays the neutral value `"mixed"`
and the ScaleLevel widget the neutral value `""` whenever their matching
shapes disagree on the relevant property, but the Swatch widget always
displays the first matching shape's value (its stroke when `noFill`, else its
fill), even when the matching shapes disagree. -/
theorem C2_neutral_display (sel : List Shape) (s1 s2 s : Shape) (rest : List Shape) :
    (s1 ∈ filterShapeByAction sel ContextBarActionType.StrokeType →
     s2 ∈ filterShapeByAction sel ContextBarActionType.StrokeType →
     s1.strokeType ≠ s2.strokeType → strokeTypeValue sel = "mixed") ∧
    (s1 ∈ filterShapeByAction sel ContextBarActionType.ScaleLevel →
     s2 ∈ filterShapeByAction sel ContextBarActionType.ScaleLevel →
     s1.scaleLevel ≠ s2.scaleLevel → scaleLevelValue sel = some "") ∧
    (filterShapeByAction sel ContextBarActionType.Swatch = s :: rest →
     swatchValue sel = some (if s.noFill then s.stroke else s.fill)) := by
  refine ⟨?_, ?_, ?_⟩
  · intro h1 h2 hne
    simp only [strokeTypeValue]
    have hd : ((filterShapeByAction sel ContextBarActionType.StrokeType).all
        (fun s => s.strokeType == "dashed")) = false := by
      refine Bool.eq_false_iff.mpr ?_
      intro hall
      rw [List.all_eq_true] at hall
      have e1 := hall _ h1
      have e2 := hall _ h2
      rw [beq_iff_eq] at e1 e2
      exact hne (e1.trans e2.symm)
    have hl : ((filterShapeByAction sel ContextBarActionType.StrokeType).all
        (fun s => s.strokeType == "line")) = false := by
      refine Bool.eq_false_iff.mpr ?_
      intro hall
      rw [List.all_eq_true] at hall
      have e1 := hall _ h1
      have e2 := hall _ h2
      rw [beq_iff_eq] at e1 e2
      exact hne (e1.trans e2.symm)
    rw [hd, hl]
    simp
  · intro h1 h2 hne
    simp only [scaleLevelValue]
    rw [if_pos (one_lt_length_dedup (List.mem_map_of_mem _ h1)
      (List.mem_map_of_mem _ h2) hne)]
  · intro hfil
    simp [swatchValue, hfil]

/-- Witness for C2 (amended) at concrete disagreeing selections. -/
theorem C2_neutral_display_witness :
    strokeTypeValue [({ type := ShapeType.box, strokeType := "dashed" } : Shape),
                     ({ type := ShapeType.box, strokeType := "line" } : Shape)] = "mixed" ∧
    scaleLevelValue [({ type := ShapeType.text, scaleLevel := "sm" } : Shape),
                     ({ type := ShapeType.text, scaleLevel := "xl" } : Shape)] = some "" ∧
    swatchValue [({ type := ShapeType.box, fill := "red" } : Shape)] =
      some (if ({ type := ShapeType.box, fill := "red" } : Shape).noFill then
        ({ type := ShapeType.box, fill := "red" } : Shape).stroke
      else ({ type := ShapeType.box, fill := "red" } : Shape).fill) :=
  ⟨(C2_neutral_display
      [({ type := ShapeType.box, strokeType := "dashed" } : Shape),
       ({ type := ShapeType.box, strokeType := "line" } : Shape)]
      ({ type := ShapeType.box, strokeType := "dashed" } : Shape)
      ({ type := ShapeType.box, strokeType := "line" } : Shape)
      ({ type := ShapeType.box } : Shape) []).1 (by decide) (by decide) (by decide),
   (C2_neutral_display
      [({ type := ShapeType.text, scaleLevel := "sm" } : Shape),
       ({ type := ShapeType.text, scaleLevel := "xl" } : Shape)]
      ({ type := ShapeType.text, scaleLevel := "sm" } : Shape)
      ({ type := ShapeType.text, scaleLevel := "xl" } : Shape)
      ({ type := ShapeType.box } : Shape) []).2.1 (by decide) (by decide) (by decide),
   (C2_neutral_display
      [({ type := ShapeType.box, fill := "red" } : Shape)]
      ({ type := ShapeType.box } : Shape) ({ type := ShapeType.box } : Shape)
      ({ type := ShapeType.box, fill := "red" } : Shape) []).2.2 (by decide)⟩

/-- Counterexample to C9: the text type supports the AutoResizing action per
the static table, yet invoking the AutoResizing change handler with the new
value `true` on a one-text-shape selection leaves the shape entirely unchanged
(`isAutoResizing` stays `false`): the handler calls the external bounds reset
instead of applying the new value to this supporting shape. -/
theorem C9_autoresizing_counterexample :
    ContextBarActionType.AutoResizing ∈ getContextBarActionTypes ShapeType.text ∧
    autoResizingOnChange [({ type := ShapeType.text } : Shape)] true =
      ([({ type := ShapeType.text } : Shape)], 1) ∧
    ({ type := ShapeType.text } : Shape).isAutoResizing ≠ true := by
  refine ⟨by decide, by decide, by decide⟩

/-- C9 (amended): for every change handler in the excerpt that writes its new
value through `shape.update` — NoFill, StrokeType, ArrowMode, and the
TextStyle bold and italic toggles — the value is applied to exactly those
selected shapes whose type's table entry contains the widget's action, every
other selected shape is unchanged, and exactly one persistence flush is
requested; the AutoResizing handler also flushes exactly once but applies
`isAutoResizing := v` only to logseq-portal shapes, sending every other
supporting shape (text, html) to the external bounds reset without applying
the value. -/
theorem C9_handler_updates_and_single_persist (selection : List Shape) (v : Bool)
    (w : String) (d : List String) :
    noFillOnChange selection v =
      (selection.map (fun s =>
          if (getContextBarActionTypes s.type).contains ContextBarActionType.NoFill then
            { s with noFill := v } else s), 1) ∧
    strokeTypeOnChange selection w =
      (selection.map (fun s =>
          if (getContextBarActionTypes s.type).contains ContextBarActionType.StrokeType then
            { s with strokeType := w } else s), 1) ∧
    arrowModeOnChange selection d =
      (selection.map (fun s =>
          if (getContextBarActionTypes s.type).contains ContextBarActionType.ArrowMode then
            { s with decorations := valueToDecorations d } else s), 1) ∧
    textStyleBoldOnChange selection v =
      (selection.map (fun s =>
          if (getContextBarActionTypes s.type).contains ContextBarActionType.TextStyle then
            { s with fontWeight := if v then 700 else 400 } else s), 1) ∧
    textStyleItalicOnChange selection v =
      (selection.map (fun s =>
          if (getContextBarActionTypes s.type).contains ContextBarActionType.TextStyle then
            { s with italic := v } else s), 1) ∧
    autoResizingOnChange selection v =
      (selection.map (fun s =>
          if s.type = ShapeType.logseqPortal then { s with isAutoResizing := v }
          else s), 1) := by
  refine ⟨?_, ?_, ?_, ?_, ?_, ?_⟩
  · simp only [noFillOnChange, Prod.mk.injEq]
    exact ⟨handlerMap_eq selection ContextBarActionType.NoFill _, trivial⟩
  · simp only [strokeTypeOnChange, Prod.mk.injEq]
    exact ⟨handlerMap_eq selection ContextBarActionType.StrokeType _, trivial⟩
  · simp only [arrowModeOnChange, Prod.mk.injEq]
    exact ⟨handlerMap_eq selection ContextBarActionType.ArrowMode _, trivial⟩
  · simp only [textStyleBoldOnChange, Prod.mk.injEq]
    exact ⟨handlerMap_eq selection ContextBarActionType.TextStyle _, trivial⟩
  · simp only [textStyleItalicOnChange, Prod.mk.injEq]
    exact ⟨handlerMap_eq selection ContextBarActionType.TextStyle _, trivial⟩
  · simp only [autoResizingOnChange, Prod.mk.injEq]
    refine ⟨?_, trivial⟩
    refine List.map_congr_left ?_
    intro s hs
    by_cases hp : s.type = ShapeType.logseqPortal
    · have hm : s ∈ filterShapeByAction selection ContextBarActionType.AutoResizing :=
        (mem_filterShapeByAction selection _ s hs).mpr (by rw [hp]; decide)
      rw [if_pos hm]
    · simp [hp]

/-- C10: when every shape of a non-empty selection supports an action per the
static table, `filterShapeByAction` returns the whole selection unchanged, so
in particular its first element is defined. -/
theorem C10_filter_keeps_supported_selection (shapes : List Shape)
    (a : ContextBarActionType) (h1 : shapes ≠ [])
    (h2 : ∀ s ∈ shapes, a ∈ getContextBarActionTypes s.type) :
    filterShapeByAction shapes a = shapes ∧
    (filterShapeByAction shapes a).head?.isSome := by
  have he : filterShapeByAction shapes a = shapes := by
    rw [filterShapeByAction]
    refine List.filter_eq_self.mpr ?_
    intro s hs
    exact (contains_iff _ _).mpr (h2 s hs)
  refine ⟨he, ?_⟩
  rw [he]
  cases shapes with
  | nil => exact absurd rfl h1
  | cons s rest => rfl

/-- Witness for C10 at a concrete box selection and the Swatch action. -/
theorem C10_witness :
    filterShapeByAction [({ type := ShapeType.box } : Shape)]
        ContextBarActionType.Swatch = [({ type := ShapeType.box } : Shape)] ∧
    (filterShapeByAction [({ type := ShapeType.box } : Shape)]
        ContextBarActionType.Swatch).head?.isSome :=
  C10_filter_keeps_supported_selection [({ type := ShapeType.box } : Shape)]
    ContextBarActionType.Swatch (by decide) (by decide)

/-- C6: for a burst of color-input events each arriving within the debounce
window of the previous one, pending updates are replaced rather than queued:
only the most recent value is applied to the Swatch-matching shapes, and
exactly one persistence flush runs, marked ephemeral. -/
theorem C6_debounce_burst (w : Nat) (selection : List Shape)
    (events : List (Nat × String)) (h : events ≠ [])
    (hgap : List.Chain' (fun e f => f.1 < e.1 + w) events) :
    swatchBurst w selection events =
      (swatchCommit selection ((events.getLast h).2), [true]) := by
  cases events with
  | nil => exact absurd rfl h
  | cons e es =>
    have hc : debounceCommits w none (e :: es) =
        [((e :: es).getLast (by simp)).2] := by
      show debounceCommits w (some e) es = _
      exact debounceCommits_chain w es e hgap
    rw [swatchBurst, hc]
    rfl

/-- Witness for C6 at a concrete three-event burst. -/
theorem C6_witness :
    swatchBurst 100 [({ type := ShapeType.box } : Shape)]
        [(0, "red"), (50, "blue"), (90, "green")] =
      (swatchCommit [({ type := ShapeType.box } : Shape)] "green", [true]) :=
  C6_debounce_burst 100 [({ type := ShapeType.box } : Shape)]
    [(0, "red"), (50, "blue"), (90, "green")] (by decide)
    (by simp [List.chain'_cons])

end ContextBarFactory
